import Mathlib

/-!
A verification development for the Bank Statement Analyser repository.

The core under study is the normalization / validation / reconciliation
engine of the API route (`extractStatementDetails` in the parse route) and
the search / pagination logic of the `StatementAnalysis` view component.
The route manipulates untrusted values produced by `JSON.parse`, so the
embedding works over an explicit model of JavaScript runtime values
(`JSValue`).  JavaScript numbers are modelled as exact rationals (ℚ); the
`toFixed(2)` / `parseFloat` pair is modelled by exact decimal rounding with
ties resolved toward the larger candidate, which is the ECMA-262 `toFixed`
rule on exact decimal inputs.  String operations (`trim`, `toLowerCase`,
`includes`, `toFixed` formatting) are modelled character-wise over
`List Char`, with the whitespace class and case mapping restricted to the
ASCII range that the statement data uses.
-/

/-- A JavaScript runtime value as produced by `JSON.parse` (plus
`undefined`, which arises from reading an absent property). -/
inductive JSValue where
  | vstr (s : String)
  | vnum (q : ℚ)
  | vbool (b : Bool)
  | vnull
  | vundefined
  | varr (elems : List JSValue)
  | vobj (fields : List (String × JSValue))

/-- `typeof v === "string"` view: the payload when `v` is a string. -/
def asString : JSValue → Option String
  | .vstr s => some s
  | _ => none

/-- `typeof v === "number"` view: the payload when `v` is a number. -/
def asNumber : JSValue → Option ℚ
  | .vnum q => some q
  | _ => none

/-- JavaScript truthiness of a value (`NaN` is outside the ℚ model). -/
def jsTruthy : JSValue → Bool
  | .vstr s => s != ""
  | .vnum q => decide (q ≠ 0)
  | .vbool b => b
  | .vnull => false
  | .vundefined => false
  | .varr _ => true
  | .vobj _ => true

/-- JavaScript `a || b`. -/
def jsOr (a b : JSValue) : JSValue := if jsTruthy a then a else b

/-- JavaScript `a ?? b`. -/
def jsNullishOr (a b : JSValue) : JSValue :=
  match a with
  | .vnull => b
  | .vundefined => b
  | _ => a

/-- Property read `v[k]` on a value that is not `null`/`undefined`:
an object yields the field (or `undefined` when absent, fields are
assumed unique as `JSON.parse` deduplicates keys); reading a property
of any other non-nullish value yields `undefined`. -/
def jsGetField (v : JSValue) (k : String) : JSValue :=
  match v with
  | .vobj fields => (fields.lookup k).getD .vundefined
  | _ => .vundefined

/-- Is the value `null` or `undefined` (the values whose property reads
throw)? -/
def isNullish : JSValue → Bool
  | .vnull => true
  | .vundefined => true
  | _ => false

/-- Property read `v[k]` as JavaScript evaluates it: throws a `TypeError`
when `v` is `null` or `undefined`, otherwise yields `jsGetField`. -/
def getField (v : JSValue) (k : String) : Except String JSValue :=
  if isNullish v then .error "TypeError" else .ok (jsGetField v k)

/-- ASCII whitespace class used by the trim model. -/
def isWS (c : Char) : Bool := c == ' ' || c == '\t' || c == '\n' || c == '\r'

/-- `String.prototype.trim` on the character list: drop whitespace from
both ends. -/
def trimCh (l : List Char) : List Char :=
  ((l.dropWhile isWS).reverse.dropWhile isWS).reverse

/-- `String.prototype.trim`. -/
def jsTrim (s : String) : String := ⟨trimCh s.data⟩

/-- `String.prototype.toLowerCase` (ASCII case mapping). -/
def lowerStr (s : String) : String := ⟨s.data.map Char.toLower⟩

/-- Is `pre` a prefix of `l`? -/
def isPrefixCh : List Char → List Char → Bool
  | [], _ => true
  | _ :: _, [] => false
  | a :: pre, b :: l => a == b && isPrefixCh pre l

/-- Does `needle` occur as a contiguous run inside `hay`?  Models
`String.prototype.includes`. -/
def containsCh (hay needle : List Char) : Bool :=
  isPrefixCh needle hay ||
    match hay with
    | [] => false
    | _ :: t => containsCh t needle

/-- `hay.includes(needle)` on strings. -/
def containsStr (hay needle : String) : Bool := containsCh hay.data needle.data

/-- The integer of hundredths selected by `q.toFixed(2)`: the `n` with
`n / 100` closest to `q`, ties resolved toward the larger `n`
(ECMA-262 `Number.prototype.toFixed`). -/
def round100 (q : ℚ) : ℤ := ⌊q * 100 + 1 / 2⌋

/-- `parseFloat(q.toFixed(2))`: the value rounded to 2 decimal places
(`-0` and `0` coincide in ℚ just as `===` identifies them). -/
def round2 (q : ℚ) : ℚ := (round100 q : ℚ) / 100

/-- Decimal digits of a natural number (`n.toString(10)` payload). -/
def natDigits (n : ℕ) : String := toString n

/-- `q.toFixed(2)`: sign taken from the number (so a negative value that
rounds to zero still prints a leading minus, as JavaScript does), then
`⌊|n|/100⌋`, a dot, and `|n| mod 100` padded to two digits. -/
def jsToFixed2 (q : ℚ) : String :=
  (if q < 0 then "-" else "") ++ natDigits ((round100 q).natAbs / 100) ++ "." ++
    (if (round100 q).natAbs % 100 < 10 then "0" else "") ++
    natDigits ((round100 q).natAbs % 100)

/-- The canonical transaction shape built by the route
(`interface Transaction` in the parse route).  `currency` is kept as a
runtime value: the TypeScript annotation says `string`, but the code can
store a non-string there (see the C4 analysis below). -/
structure Transaction where
  date : String
  desc : String
  amount : ℚ
  currency : JSValue

/-- One element of the `transactions` array of the parsed transcription
response, with its five properties read off an object value
(`interface RawTransaction`; every field is untrusted). -/
structure RawTransaction where
  date : JSValue
  description : JSValue
  moneyIn : JSValue
  moneyOut : JSValue
  currency : JSValue

/-- `typeof x === "number" ? x : 0` for the money fields. -/
def resolveNum (v : JSValue) : ℚ := (asNumber v).getD 0

/-- The body of the `flatMap` callback in `extractStatementDetails`:
validate one raw entry against the statement-level `currency` value and
emit zero or one canonical `Transaction`. -/
def normalizeEntry (currency : JSValue) (tx : RawTransaction) : List Transaction :=
  match asString tx.date, asString tx.description with
  | some d, some descr =>
    let moneyIn : ℚ := resolveNum tx.moneyIn
    let moneyOut : ℚ := resolveNum tx.moneyOut
    let txCurrency : JSValue :=
      match asString tx.currency with
      | some s => .vstr s
      | none => jsOr currency (.vstr "$")
    if 0 < moneyIn ∧ 0 < moneyOut then []
    else if moneyIn < 0 ∨ moneyOut < 0 then []
    else
      [{ date := jsTrim d,
         desc := if jsTrim descr = "" then "No Description" else jsTrim descr,
         amount := if 0 < moneyIn then moneyIn else -moneyOut,
         currency := txCurrency }]
  | _, _ => []

/-- Read the five raw-entry properties off an arbitrary non-nullish value
(a non-object yields `undefined` everywhere, as property reads do). -/
def toRawTransaction (v : JSValue) : RawTransaction :=
  { date := jsGetField v "date",
    description := jsGetField v "description",
    moneyIn := jsGetField v "moneyIn",
    moneyOut := jsGetField v "moneyOut",
    currency := jsGetField v "currency" }

/-- The `flatMap` callback applied to one raw array element as JavaScript
runs it: reading `.date` off `null` or `undefined` throws a `TypeError`
before any validation happens. -/
def normalizeTx (currency : JSValue) (tx : JSValue) : Except String (List Transaction) :=
  if isNullish tx then .error "TypeError"
  else .ok (normalizeEntry currency (toRawTransaction tx))

/-- `rawTransactions.flatMap(...)` over the whole array, left to right,
aborting at the first thrown `TypeError`. -/
def normalizeAll (currency : JSValue) : List JSValue → Except String (List Transaction)
  | [] => .ok []
  | e :: rest => do
    let ts ← normalizeTx currency e
    let more ← normalizeAll currency rest
    .ok (ts ++ more)

/-- Sum of the canonical amounts
(`transactions.reduce((acc, t) => acc + t.amount, 0)`). -/
def sumAmounts (txs : List Transaction) : ℚ :=
  txs.foldl (fun acc t => acc + t.amount) 0

/-- The reconciliation block of `extractStatementDetails`: `null` unless
both balances are numbers, else the `parseFloat(... .toFixed(2))`
comparison, which on the ℚ model is equality of the values rounded to two
decimal places. -/
def reconcile (startingBalance endingBalance : JSValue) (txs : List Transaction) : Option Bool :=
  match asNumber startingBalance, asNumber endingBalance with
  | some s, some e => some (decide (round2 (s + sumAmounts txs) = round2 e))
  | _, _ => none

/-- The route response shape (`interface StatementDetails`).  Header
fields stay runtime values because the code returns them exactly as
destructured from the parsed JSON. -/
structure StatementDetails where
  name : JSValue
  address : JSValue
  date : JSValue
  startingBalance : JSValue
  endingBalance : JSValue
  transactions : List Transaction
  reconciles : Option Bool
  currency : JSValue
  error : Option String

/-- The object built in the `catch` branch of `extractStatementDetails`
(note it carries no `currency` property, hence `undefined`). -/
def errorDetails : StatementDetails :=
  { name := .vnull, address := .vnull, date := .vnull,
    startingBalance := .vnull, endingBalance := .vnull,
    transactions := [], reconciles := none, currency := .vundefined,
    error := some "Failed to extract statement details" }

/-- The body of the `try` block after `JSON.parse` succeeded: destructure
the parsed value (throws on `null`/`undefined`), normalize the
transactions array (anything that is not an array counts as empty),
reconcile, and assemble the response with the currency fallback
`currency || (transactions[0]?.currency ?? "$")`. -/
def assemble (parsed : JSValue) : Except String StatementDetails :=
  if isNullish parsed then .error "TypeError"
  else
    match
      (match jsGetField parsed "transactions" with
       | .varr elems => normalizeAll (jsGetField parsed "currency") elems
       | _ => .ok []) with
    | .error e => .error e
    | .ok transactions =>
      .ok { name := jsGetField parsed "name",
            address := jsGetField parsed "address",
            date := jsGetField parsed "date",
            startingBalance := jsGetField parsed "startingBalance",
            endingBalance := jsGetField parsed "endingBalance",
            transactions,
            reconciles :=
              reconcile (jsGetField parsed "startingBalance")
                (jsGetField parsed "endingBalance") transactions,
            currency :=
              jsOr (jsGetField parsed "currency")
                (match transactions.head? with
                 | some t => jsNullishOr t.currency (.vstr "$")
                 | none => .vstr "$"),
            error := none }

/-- `extractStatementDetails`, abstracted over the transcription call:
`none` models a response whose content is empty or fails `JSON.parse`
(both throw inside the `try`); `some parsed` models a successful parse.
Every throw lands in the `catch`, which returns `errorDetails`. -/
def extractStatementDetails (response : Option JSValue) : StatementDetails :=
  match response with
  | none => errorDetails
  | some parsed =>
    match assemble parsed with
    | .ok d => d
    | .error _ => errorDetails

namespace View

/-- The transaction shape consumed by the `StatementAnalysis` component
(`interface Transaction` in the component file). -/
structure Transaction where
  date : String
  desc : String
  amount : ℚ

/-- The `filteredTransactions` memo of `StatementAnalysis`: lowercase the
trimmed search term; an empty term keeps the whole list, otherwise keep
the transactions whose lowercased date, lowercased description, or
`amount.toFixed(2)` rendering contains the term. -/
def filteredTransactions (search : String) (transactions : List Transaction) : List Transaction :=
  let term := lowerStr (jsTrim search)
  if term = "" then transactions
  else
    transactions.filter fun tx =>
      containsStr (lowerStr tx.date) term ||
      containsStr (lowerStr tx.desc) term ||
      containsStr (jsToFixed2 tx.amount) term

/-- `Math.ceil(filteredTransactions.length / pageSize) || 1`. -/
def pageCount (filteredLength pageSize : ℕ) : ℤ :=
  let c : ℤ := ⌈(filteredLength : ℚ) / (pageSize : ℚ)⌉
  if c = 0 then 1 else c

/-- `Array.prototype.slice(s, e)` for non-negative bounds. -/
def jsSlice {α : Type} (l : List α) (s e : ℕ) : List α := (l.take e).drop s

/-- The `paginatedTransactions` memo:
`filtered.slice((page - 1) * pageSize, page * pageSize)`. -/
def paginatedTransactions (filtered : List Transaction) (page pageSize : ℕ) : List Transaction :=
  jsSlice filtered ((page - 1) * pageSize) (page * pageSize)

end View

/-- Claim-side drop condition, written from the words of C1: the date or
description is not a string, or (after resolving non-numbers to `0`) both
money fields are positive, or either is negative. -/
def specDrops (tx : RawTransaction) : Bool :=
  !(asString tx.date).isSome || !(asString tx.description).isSome ||
  (decide (0 < resolveNum tx.moneyIn) && decide (0 < resolveNum tx.moneyOut)) ||
  (decide (resolveNum tx.moneyIn < 0) || decide (resolveNum tx.moneyOut < 0))

/-- "No surrounding whitespace": the first and last characters, when they
exist, are not whitespace. -/
def noEdgeWS (s : String) : Bool :=
  (match s.data.head? with
   | some c => !isWS c
   | none => true) &&
  (match s.data.getLast? with
   | some c => !isWS c
   | none => true)

/-- The pure meaning of the `flatMap` over already-read raw entries (the
value it computes whenever no element throws). -/
def normalizeList (currency : JSValue) : List RawTransaction → List Transaction
  | [] => []
  | e :: rest => normalizeEntry currency e ++ normalizeList currency rest

/-- View a canonical transaction as a raw entry again: the amount goes
back into `moneyIn`/`moneyOut` according to its sign, the other direction
is `0`. -/
def txToRaw (t : Transaction) : RawTransaction :=
  { date := .vstr t.date,
    description := .vstr t.desc,
    moneyIn := .vnum (if 0 < t.amount then t.amount else 0),
    moneyOut := .vnum (if 0 < t.amount then 0 else -t.amount),
    currency := t.currency }

/-- A canonical transaction: trimmed non-empty text fields and a string
currency (the claim words of C10). -/
def canonicalTx (t : Transaction) : Prop :=
  jsTrim t.date = t.date ∧ jsTrim t.desc = t.desc ∧ t.desc ≠ "" ∧ ∃ s, t.currency = .vstr s

/-- Claim-side match predicate of C7: the term occurs in the lowercased
date, the lowercased description, or the 2-decimal rendering of the
amount. -/
def specMatches (term : String) (tx : View.Transaction) : Bool :=
  containsStr (lowerStr tx.date) term || containsStr (lowerStr tx.desc) term ||
  containsStr (jsToFixed2 tx.amount) term

/-- Claim C1: the Normalizer drops a raw entry if and only if the date or
description is not a string, or, after resolving non-numeric money fields
to 0, both are positive or either is negative; every other entry yields
exactly one Transaction. -/
theorem C1_drop_iff (c : JSValue) (tx : RawTransaction) :
    (normalizeEntry c tx = [] ↔ specDrops tx = true) ∧
    (normalizeEntry c tx).length = (if specDrops tx then 0 else 1) := by
  unfold normalizeEntry specDrops
  cases hd : asString tx.date <;> cases hds : asString tx.description <;> simp
  by_cases hin : 0 < resolveNum tx.moneyIn <;>
  by_cases hout : 0 < resolveNum tx.moneyOut <;>
  by_cases hinn : resolveNum tx.moneyIn < 0 <;>
  by_cases houtn : resolveNum tx.moneyOut < 0 <;>
  (try (exfalso; linarith)) <;>
  simp [hin, hout, hinn, houtn]

/-- Claim C2: every kept entry yields one Transaction whose amount is
`moneyIn` when `moneyIn > 0` and `-moneyOut` otherwise (the all-zero case
giving 0). -/
theorem C2_amount (c : JSValue) (tx : RawTransaction) (h : specDrops tx = false) :
    ∃ t, normalizeEntry c tx = [t] ∧
      t.amount = (if 0 < resolveNum tx.moneyIn then resolveNum tx.moneyIn
                  else -(resolveNum tx.moneyOut)) := by
  unfold normalizeEntry
  unfold specDrops at h
  cases hd : asString tx.date <;> cases hds : asString tx.description <;> simp_all
  obtain ⟨h1, h3, h4⟩ := h
  have hne : ¬(resolveNum tx.moneyIn < 0 ∨ resolveNum tx.moneyOut < 0) := by
    rintro (hbad | hbad) <;> linarith
  by_cases hin : 0 < resolveNum tx.moneyIn <;> simp [hin]
  · rw [if_neg (show ¬0 < resolveNum tx.moneyOut from fun hout => by linarith [h1 hin]),
      if_neg hne]
    exact ⟨_, rfl, rfl⟩
  · rw [if_neg hne]
    exact ⟨_, rfl, rfl⟩

/-- Witness for C1 at concrete entries: ambiguous, negative and
non-string-date entries are dropped, a clean entry yields one
transaction. -/
theorem C1_drop_iff_witness :
    normalizeEntry .vnull ⟨.vstr "d1", .vstr "both", .vnum 10, .vnum 5, .vnull⟩ = [] ∧
    normalizeEntry .vnull ⟨.vstr "d2", .vstr "neg", .vnum (-1), .vnum 0, .vnull⟩ = [] ∧
    (normalizeEntry .vnull ⟨.vnum 3, .vstr "baddate", .vnum 1, .vnum 0, .vnull⟩ = []) ∧
    (normalizeEntry .vnull ⟨.vstr "d3", .vstr "ok", .vnum 1, .vnum 0, .vnull⟩).length = 1 := by
  refine ⟨?_, ?_, ?_, ?_⟩
  · exact (C1_drop_iff _ _).1.mpr (by norm_num [specDrops, resolveNum, asNumber, asString])
  · exact (C1_drop_iff _ _).1.mpr (by norm_num [specDrops, resolveNum, asNumber, asString])
  · exact (C1_drop_iff _ _).1.mpr (by norm_num [specDrops, resolveNum, asNumber, asString])
  · have h := (C1_drop_iff JSValue.vnull ⟨.vstr "d3", .vstr "ok", .vnum 1, .vnum 0, .vnull⟩).2
    rw [h, if_neg]
    norm_num [specDrops, resolveNum, asNumber, asString]

/-- Witness for C2 at the three instance shapes of the claim:
`moneyIn = 5` gives amount 5, `moneyOut = 7` gives amount -7, all-zero
gives amount 0. -/
theorem C2_amount_witness :
    (∃ t, normalizeEntry .vnull ⟨.vstr "d", .vstr "in", .vnum 5, .vnum 0, .vnull⟩ = [t] ∧
      t.amount = 5) ∧
    (∃ t, normalizeEntry .vnull ⟨.vstr "d", .vstr "out", .vnum 0, .vnum 7, .vnull⟩ = [t] ∧
      t.amount = -7) ∧
    (∃ t, normalizeEntry .vnull ⟨.vstr "d", .vstr "zero", .vnum 0, .vnum 0, .vnull⟩ = [t] ∧
      t.amount = 0) := by
  refine ⟨?_, ?_, ?_⟩
  · obtain ⟨t, ht, ha⟩ := C2_amount .vnull ⟨.vstr "d", .vstr "in", .vnum 5, .vnum 0, .vnull⟩
      (by norm_num [specDrops, resolveNum, asNumber, asString])
    exact ⟨t, ht, by rw [ha]; norm_num [resolveNum, asNumber]⟩
  · obtain ⟨t, ht, ha⟩ := C2_amount .vnull ⟨.vstr "d", .vstr "out", .vnum 0, .vnum 7, .vnull⟩
      (by norm_num [specDrops, resolveNum, asNumber, asString])
    exact ⟨t, ht, by rw [ha]; norm_num [resolveNum, asNumber]⟩
  · obtain ⟨t, ht, ha⟩ := C2_amount .vnull ⟨.vstr "d", .vstr "zero", .vnum 0, .vnum 0, .vnull⟩
      (by norm_num [specDrops, resolveNum, asNumber, asString])
    exact ⟨t, ht, by rw [ha]; norm_num [resolveNum, asNumber]⟩

/-- Evaluation rule for `round100` at concrete rationals. -/
theorem round100_eq (q : ℚ) (n : ℤ) (h1 : (n : ℚ) ≤ q * 100 + 1 / 2)
    (h2 : q * 100 + 1 / 2 < n + 1) : round100 q = n := by
  unfold round100
  exact Int.floor_eq_iff.mpr ⟨h1, h2⟩

/-- Claim C3: reconciliation is `null` exactly when either balance is
missing or non-numeric; with both numeric it is `true` iff the starting
balance plus the transaction sum, rounded to 2 decimals, equals the
ending balance rounded to 2 decimals, and `false` otherwise. -/
theorem C3_reconcile (sb eb : JSValue) (txs : List Transaction) :
    (reconcile sb eb txs = none ↔ (asNumber sb = none ∨ asNumber eb = none)) ∧
    (∀ s e, asNumber sb = some s → asNumber eb = some e →
      (reconcile sb eb txs = some true ↔ round2 (s + sumAmounts txs) = round2 e) ∧
      (reconcile sb eb txs = some false ↔ ¬round2 (s + sumAmounts txs) = round2 e)) := by
  unfold reconcile
  cases hs : asNumber sb <;> cases he : asNumber eb <;> simp

/-- Witness for C3: 100 with sum -25 reconciles against 75, fails
against 80, and a null starting balance gives `null`. -/
theorem C3_reconcile_witness :
    reconcile (.vnum 100) (.vnum 75) [⟨"d", "x", -25, .vstr "$"⟩] = some true ∧
    reconcile (.vnum 100) (.vnum 80) [⟨"d", "x", -25, .vstr "$"⟩] = some false ∧
    reconcile .vnull (.vnum 80) [⟨"d", "x", -25, .vstr "$"⟩] = none := by
  have hsum : (100 : ℚ) + sumAmounts [⟨"d", "x", -25, .vstr "$"⟩] = 75 := by
    simp [sumAmounts]
    norm_num
  refine ⟨?_, ?_, ?_⟩
  · exact ((C3_reconcile (.vnum 100) (.vnum 75) _).2 100 75 rfl rfl).1.mpr (by rw [hsum])
  · refine ((C3_reconcile (.vnum 100) (.vnum 80) _).2 100 80 rfl rfl).2.mpr ?_
    rw [hsum]
    have h75 : round100 (75 : ℚ) = 7500 := round100_eq _ _ (by norm_num) (by norm_num)
    have h80 : round100 (80 : ℚ) = 8000 := round100_eq _ _ (by norm_num) (by norm_num)
    unfold round2
    rw [h75, h80]
    norm_num
  · exact (C3_reconcile .vnull (.vnum 80) _).1.mpr (Or.inl rfl)

/-- The first element surviving `dropWhile p` fails `p`. -/
theorem head?_dropWhile {α : Type} (p : α → Bool) (l : List α) (c : α)
    (h : (l.dropWhile p).head? = some c) : p c = false := by
  induction l with
  | nil => simp [List.dropWhile] at h
  | cons a t ih =>
    rw [List.dropWhile_cons] at h
    by_cases hp : p a
    · exact ih (by simpa [hp] using h)
    · simp [hp] at h
      rw [← h]
      simpa using hp

/-- `dropWhile` removes a prefix, so a non-empty result keeps the last
element. -/
theorem getLast?_dropWhile {α : Type} (p : α → Bool) (l : List α)
    (h : l.dropWhile p ≠ []) : (l.dropWhile p).getLast? = l.getLast? := by
  induction l with
  | nil => simp [List.dropWhile] at h
  | cons a t ih =>
    rw [List.dropWhile_cons]
    rw [List.dropWhile_cons] at h
    by_cases hp : p a
    · simp only [hp, if_true] at h ⊢
      rw [ih h]
      have ht : t ≠ [] := by
        intro he
        exact h (by simp [he, List.dropWhile])
      cases t with
      | nil => exact absurd rfl ht
      | cons b u => simp [List.getLast?_cons_cons]
    · simp [hp]

/-- The trim model leaves no whitespace at either edge. -/
theorem noEdgeWS_jsTrim (s : String) : noEdgeWS (jsTrim s) = true := by
  unfold noEdgeWS jsTrim trimCh
  set t := s.data.dropWhile isWS with hT
  set m := t.reverse.dropWhile isWS with hM
  simp only [String.data]
  rw [Bool.and_eq_true]
  constructor
  · rw [List.head?_reverse]
    cases hg : m.getLast? with
    | none => rfl
    | some c =>
      have hm : m ≠ [] := by
        intro he
        rw [he] at hg
        simp at hg
      rw [getLast?_dropWhile isWS t.reverse hm, List.getLast?_reverse] at hg
      simp [head?_dropWhile isWS s.data c hg]
  · rw [List.getLast?_reverse]
    cases hh : m.head? with
    | none => rfl
    | some c =>
      simp [head?_dropWhile isWS t.reverse c hh]

/-- Inversion for the string view. -/
theorem asString_eq_some {v : JSValue} {s : String} :
    asString v = some s ↔ v = .vstr s := by
  cases v <;> simp [asString]

/-- Inversion for the number view. -/
theorem asNumber_eq_some {v : JSValue} {q : ℚ} :
    asNumber v = some q ↔ v = .vnum q := by
  cases v <;> simp [asNumber]

/-- Claim C4 (amended): every emitted Transaction has a date with no
surrounding whitespace (it may be empty), a non-empty trimmed description
with the fixed placeholder substituted when the trimmed description is
empty, and a non-empty string currency provided the entry currency, when
a string, is non-empty and the statement currency, when truthy, is a
string. -/
theorem C4_field_invariants (c : JSValue) (tx : RawTransaction) (t : Transaction)
    (ht : t ∈ normalizeEntry c tx) :
    noEdgeWS t.date = true ∧ t.desc ≠ "" ∧ noEdgeWS t.desc = true ∧
    ((∀ s, tx.currency = .vstr s → s ≠ "") →
     (jsTruthy c = true → ∃ s, c = .vstr s) →
     ∃ s, t.currency = .vstr s ∧ s ≠ "") := by
  unfold normalizeEntry at ht
  cases hd : asString tx.date <;> cases hds : asString tx.description <;> simp_all
  all_goals refine ⟨noEdgeWS_jsTrim _, ?_, ?_, ?_⟩
  all_goals try
    first
    | (split_ifs with hde
       · decide
       · exact hde)
    | (split_ifs with hde
       · decide
       · exact noEdgeWS_jsTrim _)
  all_goals
    intro hcur hstmt
    cases hc : asString tx.currency with
    | some s =>
      exact ⟨s, by simp only [hc], hcur s (asString_eq_some.mp hc)⟩
    | none =>
      simp only [hc]
      unfold jsOr
      split_ifs with htr
      · obtain ⟨s, hs⟩ := hstmt htr
        subst hs
        exact ⟨s, rfl, by simpa [jsTruthy] using htr⟩
      · exact ⟨"$", rfl, by decide⟩

/-- Counterexample to C4 as stated: a whitespace-only date is kept as
the empty string, and a truthy non-string statement currency flows into
the Transaction unchanged. -/
theorem C4_counterexample :
    normalizeEntry (.vnum 5) ⟨.vstr "  ", .vstr "x", .vnum 1, .vnum 0, .vnull⟩ =
      [{ date := "", desc := "x", amount := 1, currency := .vnum 5 }] ∧
    (∀ s, JSValue.vnum 5 ≠ .vstr s) := by
  constructor
  · simp [normalizeEntry, asString, resolveNum, asNumber, jsTrim, trimCh, isWS, jsOr, jsTruthy]
  · intro s h
    cases h

/-- Witness for C4 at a concrete kept entry with whitespace to trim, an
empty description, and a string statement currency. -/
theorem C4_field_invariants_witness :
    noEdgeWS "01" = true ∧ ("No Description" : String) ≠ "" ∧
    noEdgeWS "No Description" = true ∧ (∃ s, JSValue.vstr "USD" = .vstr s ∧ s ≠ "") := by
  have heval : normalizeEntry (.vstr "USD") ⟨.vstr " 01 ", .vstr "  ", .vnum 2, .vnum 0, .vnull⟩ =
      [{ date := "01", desc := "No Description", amount := 2, currency := .vstr "USD" }] := by
    simp [normalizeEntry, asString, resolveNum, asNumber, jsTrim, trimCh, isWS, jsOr, jsTruthy]
  obtain ⟨h1, h2, h3, h4⟩ := C4_field_invariants (.vstr "USD")
    ⟨.vstr " 01 ", .vstr "  ", .vnum 2, .vnum 0, .vnull⟩
    { date := "01", desc := "No Description", amount := 2, currency := .vstr "USD" }
    (by rw [heval]; simp)
  exact ⟨h1, h2, h3, h4 (fun s hs => nomatch hs) (fun _ => ⟨"USD", rfl⟩)⟩

/-- Counterexample to C9 as stated: a numeric `name` in the parsed
response reaches the ledger as that number, not as `null`. -/
theorem C9_counterexample :
    (extractStatementDetails (some (.vobj [("name", .vnum 42)]))).name = .vnum 42 ∧
    JSValue.vnum 42 ≠ .vnull ∧ (∀ s, JSValue.vnum 42 ≠ .vstr s) := by
  exact ⟨rfl, nofun, fun s => nofun⟩

/-- Claim C9 (amended): the five header fields pass through to the
ledger exactly as read from the parsed object, with no runtime type
coercion of any kind. -/
theorem C9_header_passthrough (v : JSValue) (L : StatementDetails)
    (h : assemble v = .ok L) :
    L.name = jsGetField v "name" ∧ L.address = jsGetField v "address" ∧
    L.date = jsGetField v "date" ∧ L.startingBalance = jsGetField v "startingBalance" ∧
    L.endingBalance = jsGetField v "endingBalance" := by
  unfold assemble at h
  by_cases hv : isNullish v
  · rw [if_pos hv] at h
    exact absurd h (by simp)
  · rw [if_neg hv] at h
    cases hn : (match jsGetField v "transactions" with
                | JSValue.varr elems => normalizeAll (jsGetField v "currency") elems
                | _ => Except.ok ([] : List Transaction)) with
    | error e =>
      rw [hn] at h
      exact absurd h (by simp)
    | ok ts =>
      rw [hn] at h
      simp only [Except.ok.injEq] at h
      rw [← h]
      exact ⟨rfl, rfl, rfl, rfl, rfl⟩

/-- Witness for C9 on a concrete parsed object carrying a string name
and a numeric starting balance. -/
theorem C9_header_passthrough_witness :
    ∃ L, assemble (.vobj [("name", .vstr "Alice"), ("startingBalance", .vnum 3)]) = .ok L ∧
      L.name = .vstr "Alice" ∧ L.startingBalance = .vnum 3 := by
  have hA : assemble (.vobj [("name", .vstr "Alice"), ("startingBalance", .vnum 3)]) =
      .ok { name := .vstr "Alice", address := .vundefined, date := .vundefined,
            startingBalance := .vnum 3, endingBalance := .vundefined, transactions := [],
            reconciles := none, currency := .vstr "$", error := none } := rfl
  obtain ⟨h1, _, _, h4, _⟩ := C9_header_passthrough _ _ hA
  exact ⟨_, hA, h1.trans rfl, h4.trans rfl⟩

theorem normalizeEntry_canonical (c : JSValue) (t : Transaction) (h : canonicalTx t) :
    normalizeEntry c (txToRaw t) = [t] := by
  obtain ⟨d, de, a, cur⟩ := t
  obtain ⟨hd, hdesc, hne, s, hcur⟩ := h
  dsimp only at hd hdesc hne hcur
  subst hcur
  unfold normalizeEntry txToRaw
  simp only [asString, resolveNum, asNumber, Option.getD_some]
  by_cases ha : 0 < a
  · rw [if_pos ha, if_pos ha]
    rw [if_neg (by simp), if_neg (by rintro (hb | hb) <;> linarith)]
    simp [ha, hd, hdesc, hne]
  · rw [if_neg ha, if_neg ha]
    push_neg at ha
    rw [if_neg (by simp), if_neg (by rintro (hb | hb) <;> linarith)]
    simp [hd, hdesc, hne]

/-- Claim C10: normalizing an already-canonical transaction list (after
writing each transaction back as a raw entry with one non-negative money
direction) reproduces the identical sequence. -/
theorem C10_idempotent (c : JSValue) (ts : List Transaction)
    (h : ∀ t ∈ ts, canonicalTx t) :
    normalizeList c (ts.map txToRaw) = ts := by
  induction ts with
  | nil => rfl
  | cons t rest ih =>
    simp only [List.map_cons, normalizeList]
    rw [normalizeEntry_canonical c t (h t (by simp)), ih (fun x hx => h x (by simp [hx]))]
    rfl

/-- Witness for C10 on a one-element canonical list. -/
theorem C10_idempotent_witness :
    (∀ t ∈ [(⟨"01-01-2024", "Coffee", -3, .vstr "$"⟩ : Transaction)], canonicalTx t) ∧
    normalizeList .vnull ([(⟨"01-01-2024", "Coffee", -3, .vstr "$"⟩ : Transaction)].map txToRaw) =
      [(⟨"01-01-2024", "Coffee", -3, .vstr "$"⟩ : Transaction)] := by
  have hc : ∀ t ∈ [(⟨"01-01-2024", "Coffee", -3, .vstr "$"⟩ : Transaction)], canonicalTx t := by
    intro t ht
    simp only [List.mem_cons, List.not_mem_nil, or_false] at ht
    subst ht
    exact ⟨by simp [jsTrim, trimCh, isWS], by simp [jsTrim, trimCh, isWS], by decide, "$", rfl⟩
  exact ⟨hc, C10_idempotent .vnull _ hc⟩

/-- `lowerStr` sends only the empty string to the empty string. -/
theorem lowerStr_eq_empty_iff (s : String) : lowerStr s = "" ↔ s = "" := by
  cases s with
  | mk l =>
    cases l <;> simp [lowerStr, String.ext_iff]

/-- Claim C7: a whitespace-only search term keeps every transaction in
order, and otherwise a transaction is kept iff the lowercased trimmed
term occurs in the lowercased date, the lowercased description, or the
2-decimal rendering of the amount. -/
theorem C7_filter (search : String) (txs : List View.Transaction) :
    (jsTrim search = "" → View.filteredTransactions search txs = txs) ∧
    (jsTrim search ≠ "" →
      View.filteredTransactions search txs =
        txs.filter (specMatches (lowerStr (jsTrim search)))) := by
  unfold View.filteredTransactions specMatches
  constructor <;> intro h
  · rw [if_pos (by rw [(lowerStr_eq_empty_iff _).mpr h])]
  · rw [if_neg (fun he => h ((lowerStr_eq_empty_iff _).mp he))]

theorem jsToFixed2_neg35 : jsToFixed2 (-3.5 : ℚ) = "-3.50" := by
  unfold jsToFixed2
  rw [round100_eq (-3.5) (-350) (by norm_num) (by norm_num),
    if_pos (by norm_num : (-3.5 : ℚ) < 0)]
  rfl

theorem jsToFixed2_2000 : jsToFixed2 (2000 : ℚ) = "2000.00" := by
  unfold jsToFixed2
  rw [round100_eq 2000 200000 (by norm_num) (by norm_num),
    if_neg (by norm_num : ¬(2000 : ℚ) < 0)]
  rfl

/-- Witness for C7 on the worked example of the specification:
"coffee", "3.50" and "-3.50" select the coffee transaction, "zzz"
selects nothing, and a blank search keeps everything. -/
theorem C7_filter_witness :
    View.filteredTransactions "coffee"
      [⟨"01-01-2024", "Coffee Shop", -3.5⟩, ⟨"02-01-2024", "Salary", 2000⟩] =
      [⟨"01-01-2024", "Coffee Shop", -3.5⟩] ∧
    View.filteredTransactions "3.50"
      [⟨"01-01-2024", "Coffee Shop", -3.5⟩, ⟨"02-01-2024", "Salary", 2000⟩] =
      [⟨"01-01-2024", "Coffee Shop", -3.5⟩] ∧
    View.filteredTransactions "-3.50"
      [⟨"01-01-2024", "Coffee Shop", -3.5⟩, ⟨"02-01-2024", "Salary", 2000⟩] =
      [⟨"01-01-2024", "Coffee Shop", -3.5⟩] ∧
    View.filteredTransactions "zzz"
      [⟨"01-01-2024", "Coffee Shop", -3.5⟩, ⟨"02-01-2024", "Salary", 2000⟩] = [] ∧
    View.filteredTransactions "   "
      [⟨"01-01-2024", "Coffee Shop", -3.5⟩, ⟨"02-01-2024", "Salary", 2000⟩] =
      [⟨"01-01-2024", "Coffee Shop", -3.5⟩, ⟨"02-01-2024", "Salary", 2000⟩] := by
  have e1 : specMatches "coffee" ⟨"01-01-2024", "Coffee Shop", -3.5⟩ = true := by decide
  have e2 : specMatches "coffee" ⟨"02-01-2024", "Salary", 2000⟩ = false := by
    unfold specMatches
    dsimp only
    rw [jsToFixed2_2000]
    decide
  have e3 : specMatches "3.50" ⟨"01-01-2024", "Coffee Shop", -3.5⟩ = true := by
    unfold specMatches
    dsimp only
    rw [jsToFixed2_neg35]
    decide
  have e4 : specMatches "3.50" ⟨"02-01-2024", "Salary", 2000⟩ = false := by
    unfold specMatches
    dsimp only
    rw [jsToFixed2_2000]
    decide
  have e5 : specMatches "-3.50" ⟨"01-01-2024", "Coffee Shop", -3.5⟩ = true := by
    unfold specMatches
    dsimp only
    rw [jsToFixed2_neg35]
    decide
  have e6 : specMatches "-3.50" ⟨"02-01-2024", "Salary", 2000⟩ = false := by
    unfold specMatches
    dsimp only
    rw [jsToFixed2_2000]
    decide
  have e7 : specMatches "zzz" ⟨"01-01-2024", "Coffee Shop", -3.5⟩ = false := by
    unfold specMatches
    dsimp only
    rw [jsToFixed2_neg35]
    decide
  have e8 : specMatches "zzz" ⟨"02-01-2024", "Salary", 2000⟩ = false := by
    unfold specMatches
    dsimp only
    rw [jsToFixed2_2000]
    decide
  refine ⟨?_, ?_, ?_, ?_, (C7_filter _ _).1 (by decide)⟩
  · rw [(C7_filter _ _).2 (by decide), show lowerStr (jsTrim "coffee") = "coffee" by decide]
    simp [List.filter_cons, e1, e2]
  · rw [(C7_filter _ _).2 (by decide), show lowerStr (jsTrim "3.50") = "3.50" by decide]
    simp [List.filter_cons, e3, e4]
  · rw [(C7_filter _ _).2 (by decide), show lowerStr (jsTrim "-3.50") = "-3.50" by decide]
    simp [List.filter_cons, e5, e6]
  · rw [(C7_filter _ _).2 (by decide), show lowerStr (jsTrim "zzz") = "zzz" by decide]
    simp [List.filter_cons, e7, e8]

/-- Evaluation rule for `Int.ceil` at concrete rationals. -/
theorem ceil_eq (q : ℚ) (n : ℤ) (h1 : (n : ℚ) - 1 < q) (h2 : q ≤ n) : ⌈q⌉ = n :=
  Int.ceil_eq_iff.mpr ⟨h1, h2⟩

/-- Claim C8: the page count is the ceiling of `filtered / pageSize`
floored at 1, and the returned page is the slice
`[(page-1)*pageSize, page*pageSize)` of the filtered list clamped to its
bounds. -/
theorem C8_pagination (l : List View.Transaction) (page ps : ℕ)
    (hps : 0 < ps) (hp : 0 < page) :
    View.pageCount l.length ps = max 1 ⌈(l.length : ℚ) / (ps : ℚ)⌉ ∧
    View.paginatedTransactions l page ps = (l.drop ((page - 1) * ps)).take ps := by
  constructor
  · dsimp only [View.pageCount]
    have hc0 : 0 ≤ ⌈(l.length : ℚ) / (ps : ℚ)⌉ :=
      Int.ceil_nonneg (div_nonneg (by positivity) (by positivity))
    by_cases h : ⌈(l.length : ℚ) / (ps : ℚ)⌉ = 0
    · rw [if_pos h, h]
      rfl
    · rw [if_neg h]
      exact (max_eq_right (by omega)).symm
  · unfold View.paginatedTransactions View.jsSlice
    rw [List.drop_take]
    congr 1
    obtain ⟨k, rfl⟩ : ∃ k, page = k + 1 := ⟨page - 1, by omega⟩
    have hk : (k + 1) * ps = k * ps + ps := by ring
    simp [hk]

/-- Witness for C8: 12 filtered transactions at page size 10 give page
count 2, and page 2 holds the remaining 2 entries. -/
theorem C8_pagination_witness :
    View.pageCount 12 10 = 2 ∧
    View.paginatedTransactions
      [⟨"d1", "a", 1⟩, ⟨"d2", "a", 2⟩, ⟨"d3", "a", 3⟩, ⟨"d4", "a", 4⟩,
       ⟨"d5", "a", 5⟩, ⟨"d6", "a", 6⟩, ⟨"d7", "a", 7⟩, ⟨"d8", "a", 8⟩,
       ⟨"d9", "a", 9⟩, ⟨"d10", "a", 10⟩, ⟨"d11", "a", 11⟩, ⟨"d12", "a", 12⟩] 2 10 =
      [⟨"d11", "a", 11⟩, ⟨"d12", "a", 12⟩] := by
  obtain ⟨h1, h2⟩ := C8_pagination
    [⟨"d1", "a", 1⟩, ⟨"d2", "a", 2⟩, ⟨"d3", "a", 3⟩, ⟨"d4", "a", 4⟩,
     ⟨"d5", "a", 5⟩, ⟨"d6", "a", 6⟩, ⟨"d7", "a", 7⟩, ⟨"d8", "a", 8⟩,
     ⟨"d9", "a", 9⟩, ⟨"d10", "a", 10⟩, ⟨"d11", "a", 11⟩, ⟨"d12", "a", 12⟩]
    2 10 (by norm_num) (by norm_num)
  constructor
  · refine h1.trans ?_
    rw [show ((([⟨"d1", "a", 1⟩, ⟨"d2", "a", 2⟩, ⟨"d3", "a", 3⟩, ⟨"d4", "a", 4⟩,
      ⟨"d5", "a", 5⟩, ⟨"d6", "a", 6⟩, ⟨"d7", "a", 7⟩, ⟨"d8", "a", 8⟩,
      ⟨"d9", "a", 9⟩, ⟨"d10", "a", 10⟩, ⟨"d11", "a", 11⟩,
      ⟨"d12", "a", 12⟩] : List View.Transaction).length : ℚ) / ((10 : ℕ) : ℚ)) = 12 / 10 by
        norm_num]
    rw [ceil_eq (12 / 10) 2 (by norm_num) (by norm_num)]
    norm_num
  · exact h2

/-- Counterexample to C5 as stated: a `null` element of the
transactions array throws a `TypeError`, aborting normalization, and the
request-level catch then returns the error object instead of dropping the
entry. -/
theorem C5_counterexample :
    normalizeAll (.vstr "$") [.vnull] = .error "TypeError" ∧
    (extractStatementDetails (some (.vobj [("transactions", .varr [.vnull])]))).error =
      some "Failed to extract statement details" := by
  exact ⟨rfl, rfl⟩

/-- Claim C5 (amended): normalization is total on every array whose
elements are not `null`/`undefined`; such entries never throw and bad
ones are resolved by dropping. -/
theorem C5_total_on_nonnullish (c : JSValue) (elems : List JSValue)
    (h : ∀ e ∈ elems, e ≠ .vnull ∧ e ≠ .vundefined) :
    ∃ ts, normalizeAll c elems = .ok ts := by
  induction elems with
  | nil => exact ⟨[], rfl⟩
  | cons e rest ih =>
    obtain ⟨ts, hts⟩ := ih (fun x hx => h x (by simp [hx]))
    obtain ⟨h1, h2⟩ := h e (by simp)
    refine ⟨normalizeEntry c (toRawTransaction e) ++ ts, ?_⟩
    have he : normalizeTx c e = .ok (normalizeEntry c (toRawTransaction e)) := by
      unfold normalizeTx
      rw [if_neg]
      cases e <;> simp_all [isNullish]
    unfold normalizeAll
    rw [he, hts]
    rfl

/-- Witness for C5 on a concrete array of non-nullish, non-object and
object values. -/
theorem C5_total_on_nonnullish_witness :
    (∀ e ∈ [JSValue.vnum 1, JSValue.vstr "x", JSValue.vobj []],
      e ≠ JSValue.vnull ∧ e ≠ JSValue.vundefined) ∧
    ∃ ts, normalizeAll .vnull [JSValue.vnum 1, JSValue.vstr "x", JSValue.vobj []] = .ok ts := by
  refine ⟨?_, C5_total_on_nonnullish .vnull _ ?_⟩ <;>
    (intro e he
     simp only [List.mem_cons, List.not_mem_nil, or_false] at he
     rcases he with rfl | rfl | rfl <;> exact ⟨nofun, nofun⟩)

/-- Claim C6: when the transcription response is empty or unparseable,
the assembler returns the error marker together with the all-defaults
ledger (null header fields, empty transactions, null reconciliation). -/
theorem C6_error_defaults :
    extractStatementDetails none =
      { name := .vnull, address := .vnull, date := .vnull, startingBalance := .vnull,
        endingBalance := .vnull, transactions := [], reconciles := none,
        currency := .vundefined, error := some "Failed to extract statement details" } := rfl
